/-
Verification of the FPL_data temporal dataset construction pipeline.

Shallow embedding of the pandas-based source code into Lean 4:
  * missing values (NaN / pd.NA) are `none : Option ℚ`, observed numerics are `some q`;
  * a pandas Series is a `List (Option ℚ)` indexed by position;
  * frames are lists of rows; heterogeneous cells use the `Cell` type.

Each definition is translated from a named function of the repository
(src/io/index.py, src/io/loaders.py, src/labels/targets.py,
src/features/player_features.py, src/features/fixture_features.py,
src/features/availability_flags.py).
-/
import Mathlib

namespace FPL

/-- Binary arithmetic on possibly-missing numeric cells: pandas propagates
NaN through arithmetic, so a missing operand gives a missing result. -/
def optBin (f : ℚ → ℚ → ℚ) : Option ℚ → Option ℚ → Option ℚ
  | some a, some b => some (f a b)
  | _, _ => none

/-- Division on possibly-missing cells (NaN-propagating). -/
def optDiv : Option ℚ → Option ℚ → Option ℚ := optBin (· / ·)

/-
### src/io/index.py
-/

/-- A heterogeneously-encoded cell of the `finished` column: python bool,
int, or string, as found in the loaded CSV data. -/
inductive Cell where
  | boolean : Bool → Cell
  | intVal : ℤ → Cell
  | strVal : String → Cell
deriving DecidableEq

/-- Auxiliary decimal rendering of a natural number, most significant digit
last; the fuel argument bounds the recursion depth. -/
def natDecimalRev : ℕ → ℕ → List Char
  | 0, _ => []
  | fuel + 1, n =>
    if n = 0 then [] else Char.ofNat (48 + n % 10) :: natDecimalRev fuel (n / 10)

/-- Decimal rendering of a natural number as a character list. -/
def natDecimal (n : ℕ) : List Char :=
  if n = 0 then ['0'] else (natDecimalRev n n).reverse

/-- Python's `str()` of an integer. -/
def intDecimal : ℤ → List Char
  | .ofNat n => natDecimal n
  | .negSucc m => '-' :: natDecimal (m + 1)

/-- Python's `str()` applied to a cell (`series.astype(str)` element-wise):
`True`/`False` for bools, decimal text for ints, identity on strings.
Strings are handled as their character sequences. -/
def Cell.pyStr : Cell → List Char
  | .boolean true => "True".data
  | .boolean false => "False".data
  | .strVal s => s.data
  | .intVal n => intDecimal n

/-- Whitespace for python `str.strip()`. -/
def pyIsSpace (c : Char) : Bool :=
  [' ', '\t', '\n', '\r'].contains c

/-- Python `str.strip()`: whitespace removed from both ends. -/
def pyStrip (s : List Char) : List Char :=
  ((s.dropWhile pyIsSpace).reverse.dropWhile pyIsSpace).reverse

/-- ASCII lower-casing of one character (python `str.lower()` over the
alphabets appearing in the data). -/
def pyLowerChar (c : Char) : Char :=
  if 65 ≤ c.toNat ∧ c.toNat ≤ 90 then Char.ofNat (c.toNat + 32) else c

/-- Python `str.lower()`. -/
def pyLower (s : List Char) : List Char :=
  s.map pyLowerChar

/-- `_to_bool_series` of src/io/index.py, element-wise:
`series.astype(str).str.strip().str.lower().isin(["true", "1", "t", "yes"])`. -/
def to_bool_series (c : Cell) : Bool :=
  ["true".data, "1".data, "t".data, "yes".data].contains (pyLower (pyStrip c.pyStr))

/-- One row of the match table, restricted to the two columns
`compute_finished_gws` reads (`tmp = match_rows[[gw_col, "finished"]]`). -/
structure MatchRow where
  gw : ℤ
  finished : Cell
deriving DecidableEq

/-- Python's `max(xs)` for a nonempty list, and the `max(xs) if xs else 0`
idiom used at src/io/index.py:39 and src/labels/targets.py:61. -/
def pyMaxOr0 : List ℤ → ℤ
  | [] => 0
  | x :: xs => xs.foldl max x

/-- The derived finished-gameweek index (`FinishedGwIndex` dataclass). -/
structure FinishedGwIndex where
  finished_gws : List ℤ
  max_finished_gw : ℤ
deriving DecidableEq

/-- The distinct gameweek keys of the match table in ascending order:
`tmp.groupby(gw_col, sort=True)` iterates each present gameweek once,
sorted ascending. -/
def groupKeys (match_rows : List MatchRow) : List ℤ :=
  ((match_rows.map (·.gw)).dedup).insertionSort (· ≤ ·)

/-- `compute_finished_gws` of src/io/index.py: a gameweek is kept iff every
match row of its group has a truthy finished flag; `max_finished_gw` is the
maximum kept gameweek, or 0 when none is kept. -/
def compute_finished_gws (match_rows : List MatchRow) : FinishedGwIndex :=
  let finished_gws :=
    (groupKeys match_rows).filter
      (fun g => (match_rows.filter (fun r => r.gw = g)).all
        (fun r => to_bool_series r.finished))
  { finished_gws := finished_gws, max_finished_gw := pyMaxOr0 finished_gws }

/-
### src/labels/targets.py : labelable_mask
-/

/-- `labelable_mask` of src/labels/targets.py applied to the `gw` column:
`max_h = max(horizons) if horizons else 0` and the mask is
`gw <= max_finished_gw - max_h` for each row. -/
def labelable_mask (gws : List ℤ) (max_finished_gw : ℤ) (horizons : List ℤ) :
    List Bool :=
  let max_h := if horizons.isEmpty then 0 else pyMaxOr0 horizons
  gws.map (fun g => decide (g ≤ max_finished_gw - max_h))

/-
### src/features/player_features.py : add_per90_features
-/

/-- `pd.to_numeric(df[minutes_col], errors="coerce").replace(0, pd.NA)`:
a minutes value of exactly zero becomes missing. -/
def minutesReplace0 (m : Option ℚ) : Option ℚ :=
  m.bind (fun q => if q = 0 then none else some q)

/-- The per-cell computation of `add_per90_features`:
`(df[c] / mins) * 90.0` with NaN propagation. -/
def per90Cell (v m : Option ℚ) : Option ℚ :=
  (optDiv v (minutesReplace0 m)).map (· * 90)

/-- One row of the fact table as seen by `add_per90_features`: its minutes
cell and the cell of one source column `c`. -/
structure StatRow where
  minutes : Option ℚ
  value : Option ℚ
deriving DecidableEq

/-- `add_per90_features` of src/features/player_features.py for a single
source column: each row keeps its data and gains the derived per-90 cell. -/
def add_per90_features (rows : List StatRow) : List (StatRow × Option ℚ) :=
  rows.map (fun r => (r, per90Cell r.value r.minutes))

/-
### pandas Series primitives (positional semantics)

A Series is a `List (Option ℚ)`; NaN is `none`.  The groupby-transform
lambdas of src/labels/targets.py and src/features/player_features.py are
compositions of `shift`, `rolling(...).sum()` and `rolling(...).mean()`,
embedded here with pandas' positional window semantics.
-/

/-- The cell of a series at a (possibly out-of-range or negative) integer
position; out of range reads as missing. -/
def cellAt (s : List (Option ℚ)) (j : ℤ) : Option ℚ :=
  if j < 0 then none else s.getD j.toNat none

/-- `Series.shift(k)`: the result at position `i` is the input at position
`i - k`, missing when that position does not exist. -/
def shift (k : ℤ) (s : List (Option ℚ)) : List (Option ℚ) :=
  (List.range s.length).map (fun i : ℕ => cellAt s ((i : ℤ) - k))

/-- Positions of the trailing window of size `w` ending at position `i`:
`max 0 (i + 1 - w), …, i` (pandas `rolling(window=w)`). -/
def windowIdx (i w : ℕ) : List ℕ :=
  List.range' (i + 1 - w) (i + 1 - (i + 1 - w))

/-- The observed (non-missing) values inside the trailing window of size `w`
ending at position `i`. -/
def windowObs (s : List (Option ℚ)) (i w : ℕ) : List ℚ :=
  ((windowIdx i w).map (fun j => s.getD j none)).filterMap id

/-- `Series.rolling(window=w, min_periods=minp).sum()`: defined at a
position iff at least `minp` observed values lie in the trailing window. -/
def rollingSum (w minp : ℕ) (s : List (Option ℚ)) : List (Option ℚ) :=
  (List.range s.length).map (fun i =>
    let obs := windowObs s i w
    if minp ≤ obs.length then some obs.sum else none)

/-- `Series.rolling(window=w, min_periods=minp).mean()`. -/
def rollingMean (w minp : ℕ) (s : List (Option ℚ)) : List (Option ℚ) :=
  (List.range s.length).map (fun i =>
    let obs := windowObs s i w
    if minp ≤ obs.length then some (obs.sum / (obs.length : ℚ)) else none)

/-
### src/labels/targets.py : add_horizon_labels
-/

/-- The per-entity groupby-transform lambda of `add_horizon_labels`
(src/labels/targets.py:41-46):
`s.shift(-1).rolling(window=h, min_periods=h).sum().shift(-(h - 1))`. -/
def horizonTotal (h : ℕ) (s : List (Option ℚ)) : List (Option ℚ) :=
  shift (-((h : ℤ) - 1)) (rollingSum h h (shift (-1) s))

/-- The derived per-week label column: `total / float(h)`
(src/labels/targets.py:48), applied cell-wise with NaN propagation. -/
def horizonPerWeek (h : ℕ) (s : List (Option ℚ)) : List (Option ℚ) :=
  (horizonTotal h s).map (fun c => c.map (· / (h : ℚ)))

/-- `add_horizon_labels` restricted to one entity and one target column:
the entity's rows `(gw, value)` in ascending gameweek order (the function
sorts by `[id_col, gw_col]` first), each paired with its horizon-`h` total
label. -/
def add_horizon_labels_entity (h : ℕ) (rows : List (ℤ × ℚ)) :
    List (ℤ × Option ℚ) :=
  List.zipWith (fun r t => (r.1, t)) rows
    (horizonTotal h (rows.map (fun r => some r.2)))

/-- Modelled from the spec's words (for comparison with the source-derived
`horizonTotal`): the total label at gameweek `g` is "the sum of the source
column over gameweeks `g+1 … g+h` for the same entity", read as the sum of
the entity's values at rows whose gameweek lies in `(g, g + h]`. -/
def specGwWindowSum (rows : List (ℤ × ℚ)) (g : ℤ) (h : ℕ) : ℚ :=
  ((rows.filter (fun r => g < r.1 ∧ r.1 ≤ g + (h : ℤ))).map (fun r => r.2)).sum

/-
### src/features/player_features.py : add_player_rolling_features
-/

/-- The `_rolling` closure of `add_player_rolling_features`
(src/features/player_features.py:78-81): trailing mean with
`min_periods=1`, over the shifted series when `include_current` is false. -/
def player_rolling_feature (include_current : Bool) (w : ℕ)
    (s : List (Option ℚ)) : List (Option ℚ) :=
  if include_current then rollingMean w 1 s
  else rollingMean w 1 (shift 1 s)

/-
### src/features/fixture_features.py : build_team_fixture_difficulty
-/

/-- One row of the fixtures table with the columns the builder requires
(`gw`, `home_team`, `away_team`, `home_team_elo`, `away_team_elo`). -/
structure FixtureRow where
  gw : ℤ
  home_team : ℕ
  away_team : ℕ
  home_team_elo : ℚ
  away_team_elo : ℚ
deriving DecidableEq

/-- One row of the per-team long format produced by the
`home_rows`/`away_rows` assignment (src/features/fixture_features.py:32-46). -/
structure TeamFxRow where
  gw : ℤ
  team_id : ℕ
  opp_id : ℕ
  is_home : ℚ
  team_elo : ℚ
  opp_elo : ℚ
deriving DecidableEq

/-- A fixture seen from its home side (`home_rows`). -/
def homeRow (fx : FixtureRow) : TeamFxRow :=
  ⟨fx.gw, fx.home_team, fx.away_team, 1, fx.home_team_elo, fx.away_team_elo⟩

/-- A fixture seen from its away side (`away_rows`). -/
def awayRow (fx : FixtureRow) : TeamFxRow :=
  ⟨fx.gw, fx.away_team, fx.home_team, 0, fx.away_team_elo, fx.home_team_elo⟩

/-- `team_fx = pd.concat([home_rows, away_rows])`. -/
def teamFx (fixtures : List FixtureRow) : List TeamFxRow :=
  fixtures.map homeRow ++ fixtures.map awayRow

/-- The optional teams dimension: `(id, strength)` pairs (assumed unique
ids, as the teams dimension is deduplicated by the caller).  `none` models
`teams_dim is None`. -/
def oppStrengthLookup (teams_dim : Option (List (ℕ × ℚ))) (opp : ℕ) :
    Option ℚ :=
  teams_dim.bind (fun dim => (dim.find? (fun t => t.1 = opp)).map (fun t => t.2))

/-- Whether the `opp_strength` column exists after the optional merge at
src/features/fixture_features.py:48-56: it does iff a nonempty teams
dimension was supplied. -/
def hasOppStrengthCol (teams_dim : Option (List (ℕ × ℚ))) : Bool :=
  match teams_dim with
  | some dim => ¬ dim.isEmpty
  | none => false

/-- `Series.mean()` with pandas' default NaN skipping: missing when no
observed value exists. -/
def skipnaMean (l : List (Option ℚ)) : Option ℚ :=
  let obs := l.filterMap id
  if obs.isEmpty then none else some (obs.sum / (obs.length : ℚ))

/-- The per-horizon cell written by the inner loop of
`build_team_fixture_difficulty` (src/features/fixture_features.py:79-98).
The `team_elo` fill from the dimension (lines 57-66) only replaces NaN
elos; fixture elos are total here, so it is the identity and is omitted. -/
structure HorizonCell where
  fixture_count : ℕ
  home_share : Option ℚ
  opp_elo_avg : Option ℚ
  opp_strength_avg : Option ℚ
  elo_delta_avg : Option ℚ
deriving DecidableEq

/-- Python's `min(xs)` for a nonempty list (0 on an empty one, a case the
callers guard against). -/
def pyMinOr0 : List ℤ → ℤ
  | [] => 0
  | x :: xs => xs.foldl min x

/-- The body of the horizon loop: `upcoming` is the team's rows with
`gw > current_gw` and `gw <= current_gw + h`; with zero upcoming fixtures
every aggregate is missing, otherwise each is a mean over `upcoming`. -/
def horizonCell (teams_dim : Option (List (ℕ × ℚ)))
    (team_rows : List TeamFxRow) (g : ℤ) (h : ℕ) : HorizonCell :=
  let upcoming := team_rows.filter (fun r => g < r.gw ∧ r.gw ≤ g + (h : ℤ))
  let count := upcoming.length
  if count = 0 then ⟨0, none, none, none, none⟩
  else
    { fixture_count := count
      home_share := some ((upcoming.map (fun r => r.is_home)).sum / (count : ℚ))
      opp_elo_avg := some ((upcoming.map (fun r => r.opp_elo)).sum / (count : ℚ))
      opp_strength_avg :=
        if hasOppStrengthCol teams_dim then
          skipnaMean (upcoming.map (fun r => oppStrengthLookup teams_dim r.opp_id))
        else none
      elo_delta_avg :=
        some ((upcoming.map (fun r => r.team_elo - r.opp_elo)).sum / (count : ℚ)) }

/-- One output row of `build_team_fixture_difficulty`: a `(team_id, gw)`
key with one cell per horizon. -/
structure DifficultyRow where
  team_id : ℕ
  gw : ℤ
  cells : List (ℕ × HorizonCell)
deriving DecidableEq

/-- `build_team_fixture_difficulty` of src/features/fixture_features.py:
empty fixtures give an empty result; otherwise one row per
`(team in sorted unique team ids, gw in range(min_gw, max_gw + 1))`. -/
def build_team_fixture_difficulty (fixtures : List FixtureRow)
    (teams_dim : Option (List (ℕ × ℚ))) (horizons : List ℕ) :
    List DifficultyRow :=
  if fixtures.isEmpty then []
  else
    let team_fx := teamFx fixtures
    let teams := ((team_fx.map (fun r => r.team_id)).dedup).insertionSort (· ≤ ·)
    let lo := pyMinOr0 (team_fx.map (fun r => r.gw))
    let hi := pyMaxOr0 (team_fx.map (fun r => r.gw))
    let gws := (List.range (hi - lo + 1).toNat).map (fun k : ℕ => lo + (k : ℤ))
    (teams ×ˢ gws).map (fun p =>
      { team_id := p.1
        gw := p.2
        cells := horizons.map (fun h =>
          (h, horizonCell teams_dim
            (team_fx.filter (fun r => r.team_id = p.1)) p.2 h)) })

/-
### Generic frames (for src/features/availability_flags.py and
### src/io/loaders.py)

A DataFrame is a declared column list plus rows; a row is an association
list from column name to numeric value, a missing association being a
missing (NaN) cell.
-/

/-- A row: column name to value associations; an absent name is NaN. -/
abbrev Row := List (String × ℚ)

/-- The cell of a row under a column name. -/
def Row.cell (r : Row) (c : String) : Option ℚ :=
  (r.find? (fun p => p.1 = c)).map (fun p => p.2)

/-- A DataFrame: declared columns and rows. -/
structure Frame where
  cols : List String
  rows : List Row
deriving DecidableEq

/-
### src/features/availability_flags.py : add_substitution_rates
-/

/-- `matches["gw"] = matches["gameweek"]`
(src/features/availability_flags.py:83-85). -/
def addGwFromGameweek (f : Frame) : Frame :=
  { cols := f.cols ++ ["gw"]
    rows := f.rows.map (fun r =>
      match r.cell ("gameweek") with
      | some v => r ++ [("gw", v)]
      | none => r) }

/-- Column projection `f[[ks]]`; the caller must have checked the columns
exist (pandas raises otherwise). -/
def project (f : Frame) (ks : List String) : Frame :=
  { cols := ks
    rows := f.rows.map (fun r =>
      ks.filterMap (fun k => (r.cell k).map (fun v => (k, v)))) }

/-- `left.merge(right, on=key, how="left")` for a right frame whose only
non-key column does not clash with the left's columns (the one use here
joins `[["match_id", "gw"]]` onto a frame without `gw`): unmatched left
rows survive with the new cells missing; NaN keys match nothing. -/
def mergeLeftOn (left right : Frame) (key : String) : Frame :=
  { cols := left.cols ++ right.cols.filter (fun c => ¬ c = key)
    rows := left.rows.flatMap (fun r =>
      let ms := right.rows.filter (fun m =>
        match r.cell key, m.cell key with
        | some a, some b => a = b
        | _, _ => false)
      if ms.isEmpty then [r]
      else ms.map (fun m => r ++ m.filter (fun p => ¬ p.1 = key))) }

/-- `pm["gw"] = pm["gw_y"].fillna(pm["gw_x"])`
(src/features/availability_flags.py:92-94), row-wise. -/
def coalesceGwXY (f : Frame) : Frame :=
  { cols := f.cols ++ ["gw"]
    rows := f.rows.map (fun r =>
      match r.cell ("gw_y"), r.cell ("gw_x") with
      | some v, _ => r ++ [("gw", v)]
      | none, some v => r ++ [("gw", v)]
      | none, none => r) }

/-- `pm.dropna(subset=["gw"])`. -/
def dropnaGw (f : Frame) : Frame :=
  { f with rows := f.rows.filter (fun r => (r.cell ("gw")).isSome) }

/-- Pandas comparison semantics on possibly-missing cells: a comparison
with NaN is false. -/
def cellHolds (a : Option ℚ) (p : ℚ → Bool) : Bool :=
  match a with
  | some v => p v
  | none => false

/-- The `early_sub` indicator (src/features/availability_flags.py:103-107):
`(start_min <= sub_on_min) & (finish_min < early_sub_min)
 & (minutes_played > 0)`, as a 0/1 value. -/
def earlySubFlag (early_sub_min sub_on_min : ℚ) (r : Row) : ℚ :=
  if cellHolds (r.cell ("start_min")) (fun v => v ≤ sub_on_min)
      ∧ cellHolds (r.cell ("finish_min")) (fun v => v < early_sub_min)
      ∧ cellHolds (r.cell ("minutes_played")) (fun v => 0 < v) then 1 else 0

/-- The `sub_on` indicator: `start_min > sub_on_min`, as a 0/1 value. -/
def subOnFlag (sub_on_min : ℚ) (r : Row) : ℚ :=
  if cellHolds (r.cell ("start_min")) (fun v => sub_on_min < v) then 1 else 0

/-- The `(player_id, gw)` group keys of
`pm.groupby([id_col, "gw"])`, sorted as by
`.sort_values([id_col, "gw"])` (pandas drops NaN keys). -/
def subRateKeys (rows : List Row) : List (ℚ × ℚ) :=
  ((rows.filterMap (fun r =>
      match r.cell ("player_id"), r.cell ("gw") with
      | some p, some g => some (p, g)
      | _, _ => none)).dedup).insertionSort
    (fun a b => a.1 < b.1 ∨ (a.1 = b.1 ∧ a.2 ≤ b.2))

/-- The rows of one `(player_id, gw)` group. -/
def subRateGroup (rows : List Row) (k : ℚ × ℚ) : List Row :=
  rows.filter (fun r => r.cell ("player_id") = some k.1 ∧ r.cell ("gw") = some k.2)

/-- A group mean of a derived 0/1 column (groups are nonempty by
construction of the keys). -/
def groupMean (f : Row → ℚ) (g : List Row) : ℚ :=
  (g.map f).sum / (g.length : ℚ)

/-- The trailing rolling mean (`window_gw`, `min_periods=1`) of a player's
per-gameweek rate at key `k`, over that player's keys with gameweek at
most `k.2` in sorted order (src/features/availability_flags.py:116-119). -/
def lastNMean (window_gw : ℕ) (rate : ℚ × ℚ → ℚ) (ks : List (ℚ × ℚ))
    (k : ℚ × ℚ) : ℚ :=
  let upto := (ks.filter (fun j => j.1 = k.1 ∧ j.2 ≤ k.2)).map rate
  let window := (upto.reverse.take window_gw).reverse
  window.sum / (window.length : ℚ)

/-- The final left merge of the two smoothed rate columns onto the base
frame on `(player_id, gw)` (src/features/availability_flags.py:121-127);
the right side's keys are unique so no row is duplicated. -/
def attachSubRates (base : Frame) (pm : Frame) (window_gw : ℕ)
    (early_sub_min sub_on_min : ℚ) : Frame :=
  let ks := subRateKeys pm.rows
  let early := fun k => groupMean (earlySubFlag early_sub_min sub_on_min)
    (subRateGroup pm.rows k)
  let subOn := fun k => groupMean (subOnFlag sub_on_min) (subRateGroup pm.rows k)
  { cols := base.cols ++ ["early_sub_rate_last_n", "sub_on_rate_last_n"]
    rows := base.rows.map (fun r =>
      match r.cell ("player_id"), r.cell ("gw") with
      | some p, some g =>
        if (p, g) ∈ ks then
          r ++ [("early_sub_rate_last_n", lastNMean window_gw early ks (p, g)),
                ("sub_on_rate_last_n", lastNMean window_gw subOn ks (p, g))]
        else r
      | _, _ => r) }

/-- `add_substitution_rates` of src/features/availability_flags.py.
Guard structure as in the source: empty inputs or missing `match_id` /
`player_id` / `start_min` / `finish_min` columns return the base frame
unchanged; the column selection `matches[["match_id", "gw"]]` at line 88
raises a `KeyError` when the match table carries neither `gw` nor
`gameweek`, before the `gw`-missing guard at line 95 can fire; a missing
`minutes_played` column likewise raises at line 106. -/
def add_substitution_rates (base_df pm0 matches0 : Frame) (window_gw : ℕ)
    (early_sub_min sub_on_min : ℚ) : Except String Frame :=
  if pm0.rows.isEmpty ∨ matches0.rows.isEmpty then .ok base_df
  else if ¬ ("match_id" ∈ pm0.cols) ∨ ¬ ("match_id" ∈ matches0.cols) then
    .ok base_df
  else if ¬ ("player_id" ∈ pm0.cols) then .ok base_df
  else
    let ms := if ¬ ("gw" ∈ matches0.cols) ∧ ("gameweek" ∈ matches0.cols)
      then addGwFromGameweek matches0 else matches0
    let staged : Except String Frame :=
      if ¬ ("gw" ∈ pm0.cols) then
        if ¬ ("gw" ∈ ms.cols) then .error ("KeyError: gw")
        else .ok (dropnaGw (mergeLeftOn pm0 (project ms ["match_id", "gw"])
          "match_id"))
      else .ok (if ("gw_y" ∈ pm0.cols) ∧ ("gw_x" ∈ pm0.cols)
        then coalesceGwXY pm0 else pm0)
    staged.bind (fun pm1 =>
      if ¬ ("gw" ∈ pm1.cols) then .ok base_df
      else
        let pm2 := dropnaGw pm1
        if ¬ ("start_min" ∈ pm2.cols) ∨ ¬ ("finish_min" ∈ pm2.cols) then
          .ok base_df
        else if ¬ ("minutes_played" ∈ pm2.cols) then
          .error ("KeyError: minutes_played")
        else .ok (attachSubRates base_df pm2 window_gw early_sub_min
          sub_on_min))

/-
### src/io/loaders.py : list_gw_dirs and load_all_gws
-/

/-- A gameweek snapshot directory: its name and the tables its files parse
to (`pd.read_csv` is external; a file maps directly to its frame). -/
structure GwDir where
  name : String
  files : List (String × Frame)
deriving DecidableEq

/-- Whether a directory holds the named file, and the parsed frame. -/
def GwDir.lookup (d : GwDir) (fname : String) : Option Frame :=
  (d.files.find? (fun p => p.1 = fname)).map (fun p => p.2)

/-- One decimal digit of a character, if any. -/
def digitVal (c : Char) : Option ℕ :=
  if 48 ≤ c.toNat ∧ c.toNat ≤ 57 then some (c.toNat - 48) else none

/-- The digits of a decimal numeral (empty input is not a numeral). -/
def parseDigits (l : List Char) : Option ℕ :=
  if l.isEmpty then none
  else l.foldl (fun acc c => acc.bind
    (fun a => (digitVal c).map (fun d => a * 10 + d))) (some 0)

/-- Python's `int()` on a string: optional surrounding whitespace, an
optional sign, then decimal digits; anything else raises `ValueError`
(modelled as `none`). -/
def pyIntOfChars (s : List Char) : Option ℤ :=
  match pyStrip s with
  | '-' :: rest => (parseDigits rest).map (fun n => -(n : ℤ))
  | '+' :: rest => (parseDigits rest).map (fun n => (n : ℤ))
  | t => (parseDigits t).map (fun n => (n : ℤ))

/-- `list_gw_dirs` of src/io/loaders.py: keep directories whose lowercased
name starts with `gw` and whose suffix parses as an integer, sorted by
that integer (`sorted` is stable). -/
def list_gw_dirs (root : List GwDir) : List (ℤ × GwDir) :=
  (root.filterMap (fun d =>
    if (pyLower d.name.data).take 2 = "gw".data then
      (pyIntOfChars (d.name.data.drop 2)).map (fun n => (n, d))
    else none)).insertionSort (fun a b => a.1 ≤ b.1)

/-- `df.insert(0, "gw", gw_num)`. -/
def insertGwCol (g : ℤ) (f : Frame) : Frame :=
  { cols := "gw" :: f.cols
    rows := f.rows.map (fun r => ("gw", (g : ℚ)) :: r) }

/-- `pd.concat(frames, ignore_index=True)`: columns in order of first
appearance, rows appended. -/
def concatFrames (frames : List Frame) : Frame :=
  { cols := frames.foldl (fun acc f =>
      acc ++ f.cols.filter (fun c => ¬ c ∈ acc)) []
    rows := frames.flatMap (fun f => f.rows) }

/-- The loading loop of `load_all_gws` (src/io/loaders.py:50-61): walk the
sorted gameweek directories accumulating read frames and the column list
of the first successful read (recorded before `gw` injection). -/
def loadLoop (filename : String) (add_gw allow_missing : Bool) :
    List (ℤ × GwDir) → List Frame × Option (List String) →
    Except String (List Frame × Option (List String))
  | [], acc => .ok acc
  | (g, d) :: rest, (frames, firstCols) =>
    match d.lookup filename with
    | none =>
      if allow_missing then loadLoop filename add_gw allow_missing rest
        (frames, firstCols)
      else .error ("Missing file: " ++ d.name ++ "/" ++ filename)
    | some df =>
      let fc := if firstCols.isNone then some df.cols else firstCols
      let df := if add_gw ∧ ¬ ("gw" ∈ df.cols) then insertGwCol g df else df
      loadLoop filename add_gw allow_missing rest (frames ++ [df], fc)

/-- `load_all_gws` of src/io/loaders.py: no frame at all gives a bare empty
frame; frames that are all empty give an empty frame carrying the first
read columns; otherwise the concatenation of the nonempty frames. -/
def load_all_gws (root : List GwDir) (filename : String)
    (add_gw allow_missing : Bool) : Except String Frame :=
  (loadLoop filename add_gw allow_missing (list_gw_dirs root) ([], none)).map
    (fun acc =>
      if acc.1.isEmpty then { cols := [], rows := [] }
      else
        let non_empty := acc.1.filter (fun f => ¬ f.rows.isEmpty)
        if non_empty.isEmpty then { cols := acc.2.getD [], rows := [] }
        else concatFrames non_empty)

/-- The frames the loading loop reads: one per sorted gameweek directory
that holds the requested file (analysis helper for `load_all_gws`). -/
def foundFrames (fname : String) (dirs : List (ℤ × GwDir)) : List Frame :=
  dirs.filterMap (fun e => e.2.lookup fname)

/-- The frames the loading loop accumulates, after the optional `gw`
injection (analysis helper for `load_all_gws`). -/
def processedFrames (fname : String) (add_gw : Bool)
    (dirs : List (ℤ × GwDir)) : List Frame :=
  dirs.filterMap (fun e => (e.2.lookup fname).map (fun f =>
    if add_gw ∧ ¬ ("gw" ∈ f.cols) then insertGwCol e.1 f else f))

/-
## Lemmas about the series primitives
-/

lemma map_range_getD (n : ℕ) (f : ℕ → Option ℚ) (i : ℕ) (hi : i < n) :
    ((List.range n).map f).getD i none = f i := by
  rw [List.getD_eq_getElem?_getD, List.getElem?_map, List.getElem?_range hi]
  rfl

lemma getD_map_some (vs : List ℚ) (m : ℕ) :
    (vs.map some).getD m none = vs[m]? := by
  rw [List.getD_eq_getElem?_getD, List.getElem?_map]
  cases vs[m]? <;> rfl

lemma shift_length (k : ℤ) (s : List (Option ℚ)) :
    (shift k s).length = s.length := by
  unfold shift
  rw [List.length_map, List.length_range]

lemma rollingSum_length (w minp : ℕ) (s : List (Option ℚ)) :
    (rollingSum w minp s).length = s.length := by
  unfold rollingSum
  rw [List.length_map, List.length_range]

lemma rollingMean_length (w minp : ℕ) (s : List (Option ℚ)) :
    (rollingMean w minp s).length = s.length := by
  unfold rollingMean
  rw [List.length_map, List.length_range]

lemma shift_getD (k : ℤ) (s : List (Option ℚ)) (i : ℕ) (hi : i < s.length) :
    (shift k s).getD i none = cellAt s ((i : ℤ) - k) := by
  unfold shift
  exact map_range_getD _ _ _ hi

lemma rollingSum_getD (w minp : ℕ) (s : List (Option ℚ)) (i : ℕ)
    (hi : i < s.length) :
    (rollingSum w minp s).getD i none =
      if minp ≤ (windowObs s i w).length then some (windowObs s i w).sum
      else none := by
  unfold rollingSum
  exact map_range_getD _ _ _ hi

lemma rollingMean_getD (w minp : ℕ) (s : List (Option ℚ)) (i : ℕ)
    (hi : i < s.length) :
    (rollingMean w minp s).getD i none =
      if minp ≤ (windowObs s i w).length then
        some ((windowObs s i w).sum / ((windowObs s i w).length : ℚ))
      else none := by
  unfold rollingMean
  exact map_range_getD _ _ _ hi

lemma cellAt_ofNat (s : List (Option ℚ)) (j : ℕ) :
    cellAt s (j : ℤ) = s.getD j none := by
  simp [cellAt]

lemma cellAt_out_of_range (s : List (Option ℚ)) (j : ℕ)
    (hj : s.length ≤ j) : cellAt s (j : ℤ) = none := by
  rw [cellAt_ofNat]
  exact List.getD_eq_default _ _ hj

lemma map_range'_shift {α : Type} (f : ℕ → α) (a h : ℕ) :
    (List.range' a h).map (fun j => f (j + 1)) = (List.range' (a + 1) h).map f := by
  induction h generalizing a with
  | zero => rfl
  | succ h ih =>
    rw [List.range'_succ, List.range'_succ, List.map_cons, List.map_cons, ih]

lemma window_map_some (vs : List ℚ) (h : ℕ) :
    ∀ a : ℕ, a + h ≤ vs.length →
      (List.range' a h).map (fun j => (vs.map some).getD j none)
        = ((vs.drop a).take h).map some := by
  induction h with
  | zero => simp
  | succ h ih =>
    intro a hle
    have ha : a < vs.length := by omega
    rw [List.range'_succ, List.map_cons, getD_map_some,
      List.getElem?_eq_getElem ha, List.drop_eq_getElem_cons ha,
      List.take_succ_cons, List.map_cons, ih (a + 1) (by omega)]

lemma filterMap_id_map_some (l : List ℚ) : (l.map some).filterMap id = l := by
  rw [List.filterMap_map]
  exact List.filterMap_some l

lemma filterMap_id_length_lt (l : List (Option ℚ)) (h : none ∈ l) :
    (l.filterMap id).length < l.length := by
  induction l with
  | nil => cases h
  | cons a l ih =>
    cases a with
    | none =>
      have hle := List.length_filterMap_le (id : Option ℚ → Option ℚ) l
      simp only [List.filterMap_cons, List.length_cons]
      exact Nat.lt_succ_of_le hle
    | some v =>
      have h2 : none ∈ l := by
        rcases List.mem_cons.mp h with h1 | h1
        · cases h1
        · exact h1
      simp only [List.filterMap_cons, List.length_cons]
      exact Nat.succ_lt_succ (ih h2)

lemma windowIdx_length (i w : ℕ) :
    (windowIdx i w).length = i + 1 - (i + 1 - w) := by
  simp [windowIdx]

lemma self_mem_windowIdx (i w : ℕ) (hw : 1 ≤ w) : i ∈ windowIdx i w := by
  unfold windowIdx
  rw [List.mem_range'_1]
  omega

lemma windowIdx_full (i w : ℕ) (hw : w ≤ i + 1) :
    windowIdx i w = List.range' (i + 1 - w) w := by
  unfold windowIdx
  congr 1
  omega

/-- Fully-observed series: the trailing window of size `w` at position `i`
collects exactly the values at positions `max 0 (i + 1 - w) … i`. -/
lemma windowObs_map_some (vs : List ℚ) (i w : ℕ) (hi : i < vs.length) :
    windowObs (vs.map some) i w
      = (vs.drop (i + 1 - w)).take (i + 1 - (i + 1 - w)) := by
  unfold windowObs windowIdx
  rw [window_map_some vs _ (i + 1 - w) (by omega), filterMap_id_map_some]

/-- Closed form of the per-entity label series of `add_horizon_labels`:
over a fully observed entity series, the horizon-`h` total at position `i`
is the sum of the next `h` values, and is missing exactly when fewer than
`h` later positions exist. -/
theorem horizonTotal_getD (vs : List ℚ) (h i : ℕ) (hh : 1 ≤ h)
    (hi : i < vs.length) :
    (horizonTotal h (vs.map some)).getD i none =
      if i + h < vs.length then some (((vs.drop (i + 1)).take h).sum)
      else none := by
  have hsl : (vs.map some).length = vs.length := by simp
  have htl : (shift (-1) (vs.map some)).length = vs.length := by
    rw [shift_length, hsl]
  have hrl : (rollingSum h h (shift (-1) (vs.map some))).length = vs.length := by
    rw [rollingSum_length, htl]
  have ht_getD : ∀ j : ℕ, j < vs.length →
      (shift (-1) (vs.map some)).getD j none = (vs.map some).getD (j + 1) none := by
    intro j hj
    rw [shift_getD _ _ j (by rw [hsl]; exact hj)]
    have hcast : (j : ℤ) - (-1) = ((j + 1 : ℕ) : ℤ) := by push_cast; ring
    rw [hcast, cellAt_ofNat]
  unfold horizonTotal
  rw [shift_getD _ _ i (by rw [hrl]; exact hi)]
  have hcast : (i : ℤ) - (-((h : ℤ) - 1)) = ((i + h - 1 : ℕ) : ℤ) := by
    push_cast [Nat.cast_sub (by omega : 1 ≤ i + h)]
    ring
  rw [hcast]
  by_cases hp : i + h - 1 < vs.length
  · rw [cellAt_ofNat, rollingSum_getD _ _ _ _ (by rw [htl]; exact hp)]
    by_cases hin : i + h < vs.length
    · -- full window, all h future positions observed
      have hwfull : windowIdx (i + h - 1) h = List.range' i h := by
        rw [windowIdx_full _ _ (by omega)]
        congr 1
        omega
      have hmap : (List.range' i h).map
          (fun j => (shift (-1) (vs.map some)).getD j none)
            = ((vs.drop (i + 1)).take h).map some := by
        have step1 : (List.range' i h).map
            (fun j => (shift (-1) (vs.map some)).getD j none)
              = (List.range' i h).map
                (fun j => (vs.map some).getD (j + 1) none) := by
          refine List.map_congr_left ?_
          intro j hj
          rw [List.mem_range'_1] at hj
          exact ht_getD j (by omega)
        rw [step1,
          map_range'_shift (fun m => (vs.map some).getD m none) i h,
          window_map_some vs h (i + 1) (by omega)]
      unfold windowObs
      rw [hwfull, hmap, filterMap_id_map_some]
      have hlen : ((vs.drop (i + 1)).take h).length = h := by
        rw [List.length_take, List.length_drop]
        omega
      rw [hlen, if_pos (le_refl h), if_pos hin]
    · -- the last window position reads past the end: label undefined
      have hend : i + h = vs.length := by omega
      have hnone : (shift (-1) (vs.map some)).getD (i + h - 1) none = none := by
        rw [ht_getD _ hp, getD_map_some]
        have : vs.length ≤ i + h - 1 + 1 := by omega
        simp [List.getElem?_eq_none this]
      have hmem : (none : Option ℚ) ∈ (windowIdx (i + h - 1) h).map
          (fun j => (shift (-1) (vs.map some)).getD j none) := by
        have hm := List.mem_map_of_mem
          (fun j => (shift (-1) (vs.map some)).getD j none)
          (self_mem_windowIdx (i + h - 1) h hh)
        simp only [] at hm
        rw [hnone] at hm
        exact hm
      have hlt := filterMap_id_length_lt _ hmem
      rw [List.length_map, windowIdx_length] at hlt
      have hobs : (windowObs (shift (-1) (vs.map some)) (i + h - 1) h).length < h := by
        unfold windowObs
        omega
      rw [if_neg (by omega), if_neg hin]
  · -- position past the end of the series
    rw [cellAt_out_of_range _ _ (by rw [hrl]; omega), if_neg (by omega)]

/-- Length preservation for the label series. -/
lemma horizonTotal_length (h : ℕ) (s : List (Option ℚ)) :
    (horizonTotal h s).length = s.length := by
  rw [horizonTotal, shift_length, rollingSum_length, shift_length]

/-
## Lemmas about the python max / min idioms
-/

lemma foldl_max_spec (xs : List ℤ) : ∀ x : ℤ,
    xs.foldl max x ∈ x :: xs ∧ ∀ y ∈ x :: xs, y ≤ xs.foldl max x := by
  induction xs with
  | nil =>
    intro x
    refine ⟨List.mem_singleton_self x, ?_⟩
    intro y hy
    rw [List.mem_singleton] at hy
    simp [hy, List.foldl_nil]
  | cons a xs ih =>
    intro x
    constructor
    · have hmem := (ih (max x a)).1
      rcases List.mem_cons.mp hmem with hh | hh
      · rcases max_choice x a with hc | hc
        · exact List.mem_cons.mpr (Or.inl (by rw [List.foldl_cons, hh, hc]))
        · exact List.mem_cons.mpr (Or.inr (List.mem_cons.mpr
            (Or.inl (by rw [List.foldl_cons, hh, hc]))))
      · exact List.mem_cons.mpr (Or.inr (List.mem_cons.mpr (Or.inr hh)))
    · intro y hy
      have hb := (ih (max x a)).2
      rcases List.mem_cons.mp hy with hh | hh
      · calc y = x := hh
          _ ≤ max x a := le_max_left x a
          _ ≤ xs.foldl max (max x a) := hb _ (List.mem_cons_self _ _)
      · rcases List.mem_cons.mp hh with hh2 | hh2
        · calc y = a := hh2
            _ ≤ max x a := le_max_right x a
            _ ≤ xs.foldl max (max x a) := hb _ (List.mem_cons_self _ _)
        · exact hb y (List.mem_cons.mpr (Or.inr hh2))

lemma foldl_min_spec (xs : List ℤ) : ∀ x : ℤ,
    xs.foldl min x ∈ x :: xs ∧ ∀ y ∈ x :: xs, xs.foldl min x ≤ y := by
  induction xs with
  | nil =>
    intro x
    refine ⟨List.mem_singleton_self x, ?_⟩
    intro y hy
    rw [List.mem_singleton] at hy
    simp [hy, List.foldl_nil]
  | cons a xs ih =>
    intro x
    constructor
    · have hmem := (ih (min x a)).1
      rcases List.mem_cons.mp hmem with hh | hh
      · rcases min_choice x a with hc | hc
        · exact List.mem_cons.mpr (Or.inl (by rw [List.foldl_cons, hh, hc]))
        · exact List.mem_cons.mpr (Or.inr (List.mem_cons.mpr
            (Or.inl (by rw [List.foldl_cons, hh, hc]))))
      · exact List.mem_cons.mpr (Or.inr (List.mem_cons.mpr (Or.inr hh)))
    · intro y hy
      have hb := (ih (min x a)).2
      rcases List.mem_cons.mp hy with hh | hh
      · calc xs.foldl min (min x a) ≤ min x a := hb _ (List.mem_cons_self _ _)
          _ ≤ x := min_le_left x a
          _ = y := hh.symm
      · rcases List.mem_cons.mp hh with hh2 | hh2
        · calc xs.foldl min (min x a) ≤ min x a := hb _ (List.mem_cons_self _ _)
            _ ≤ a := min_le_right x a
            _ = y := hh2.symm
        · exact hb y (List.mem_cons.mpr (Or.inr hh2))

lemma pyMaxOr0_spec (l : List ℤ) (hne : l ≠ []) :
    pyMaxOr0 l ∈ l ∧ ∀ y ∈ l, y ≤ pyMaxOr0 l := by
  cases l with
  | nil => exact absurd rfl hne
  | cons x xs => exact foldl_max_spec xs x

lemma pyMinOr0_spec (l : List ℤ) (hne : l ≠ []) :
    pyMinOr0 l ∈ l ∧ ∀ y ∈ l, pyMinOr0 l ≤ y := by
  cases l with
  | nil => exact absurd rfl hne
  | cons x xs => exact foldl_min_spec xs x

/-
## Claim theorems
-/

/-- C2: `compute_finished_gws` keeps a gameweek iff some match row carries
that gameweek and every match row carrying it has a truthy finished flag
(a gameweek with no match rows is excluded); `max_finished_gw` is the
maximum kept gameweek, or 0 when none qualifies, with no error path. -/
theorem C2_compute_finished_gws (match_rows : List MatchRow) (g : ℤ) :
    (g ∈ (compute_finished_gws match_rows).finished_gws ↔
      ((∃ r ∈ match_rows, r.gw = g) ∧
        ∀ r ∈ match_rows, r.gw = g → to_bool_series r.finished = true))
    ∧ ((compute_finished_gws match_rows).finished_gws ≠ [] →
        (compute_finished_gws match_rows).max_finished_gw
            ∈ (compute_finished_gws match_rows).finished_gws
        ∧ ∀ x ∈ (compute_finished_gws match_rows).finished_gws,
            x ≤ (compute_finished_gws match_rows).max_finished_gw)
    ∧ ((compute_finished_gws match_rows).finished_gws = [] →
        (compute_finished_gws match_rows).max_finished_gw = 0) := by
  refine ⟨?_, ?_, ?_⟩
  · show g ∈ (groupKeys match_rows).filter _ ↔ _
    rw [List.mem_filter]
    constructor
    · rintro ⟨hkey, hall⟩
      have hmem : g ∈ (match_rows.map (fun r => r.gw)) := by
        have := (List.perm_insertionSort (· ≤ ·)
          ((match_rows.map (·.gw)).dedup)).mem_iff.mp hkey
        exact List.mem_dedup.mp this
      rcases List.mem_map.mp hmem with ⟨r, hr, hrg⟩
      refine ⟨⟨r, hr, hrg⟩, ?_⟩
      intro r2 hr2 hg2
      rw [List.all_eq_true] at hall
      exact hall r2 (List.mem_filter.mpr ⟨hr2, by simp [hg2]⟩)
    · rintro ⟨⟨r, hr, hrg⟩, hall⟩
      constructor
      · refine (List.perm_insertionSort (· ≤ ·) _).mem_iff.mpr ?_
        exact List.mem_dedup.mpr (List.mem_map.mpr ⟨r, hr, hrg⟩)
      · rw [List.all_eq_true]
        intro r2 hr2
        rcases List.mem_filter.mp hr2 with ⟨hr2m, hr2g⟩
        exact hall r2 hr2m (by simpa using hr2g)
  · intro hne
    exact pyMaxOr0_spec _ hne
  · intro hnil
    have hdef : (compute_finished_gws match_rows).max_finished_gw
        = pyMaxOr0 (compute_finished_gws match_rows).finished_gws := rfl
    rw [hdef, hnil]
    rfl

/-- C2 witness: a mixed concrete match table — gameweek 1 fully finished,
gameweek 2 voided by one unfinished match, gameweek 3 absent. -/
theorem C2_compute_finished_gws_witness :
    ((3 : ℤ) ∈ (compute_finished_gws
        [⟨1, .boolean true⟩, ⟨2, .strVal ("true")⟩, ⟨2, .intVal 0⟩]).finished_gws ↔
      ((∃ r ∈ [(⟨1, .boolean true⟩ : MatchRow), ⟨2, .strVal ("true")⟩,
          ⟨2, .intVal 0⟩], r.gw = 3) ∧
        ∀ r ∈ [(⟨1, .boolean true⟩ : MatchRow), ⟨2, .strVal ("true")⟩,
          ⟨2, .intVal 0⟩], r.gw = 3 → to_bool_series r.finished = true))
    ∧ (compute_finished_gws
        [⟨1, .boolean true⟩, ⟨2, .strVal ("true")⟩, ⟨2, .intVal 0⟩]).finished_gws
          = [1]
    ∧ (compute_finished_gws
        [⟨1, .boolean true⟩, ⟨2, .strVal ("true")⟩, ⟨2, .intVal 0⟩]).max_finished_gw
          ∈ (compute_finished_gws
        [⟨1, .boolean true⟩, ⟨2, .strVal ("true")⟩, ⟨2, .intVal 0⟩]).finished_gws :=
  ⟨(C2_compute_finished_gws _ 3).1, by decide,
    ((C2_compute_finished_gws
      [⟨1, .boolean true⟩, ⟨2, .strVal ("true")⟩, ⟨2, .intVal 0⟩] 3).2.1
        (by decide)).1⟩

/-- C3 counterexample: with `max_finished_gw = 10` and horizons `[1, 5]`
the claim's example says a row at gameweek 6 is labelable; the code's mask
is `gw ≤ 10 - 5 = 5`, so the gameweek-6 row is not flagged. -/
theorem C3_counterexample :
    labelable_mask [(6 : ℤ), 7] 10 [1, 5] = [false, false]
    ∧ labelable_mask [(6 : ℤ), 7] 10 [1, 5] ≠ [true, false] := by
  decide

/-- C3 (amended): `labelable_mask` flags exactly the rows whose gameweek is
at most `max_finished_gw` minus the largest horizon; with
`max_finished_gw = 10` and horizons `[1, 5]`, a row at gameweek 5 is
labelable and a row at gameweek 6 is not. -/
theorem C3_labelable_mask (gws : List ℤ) (mf : ℤ) (hs : List ℤ) (i : ℕ)
    (hi : i < gws.length) (hne : hs ≠ []) :
    ((labelable_mask gws mf hs).getD i false = true ↔
      gws.getD i 0 ≤ mf - pyMaxOr0 hs)
    ∧ (pyMaxOr0 hs ∈ hs ∧ ∀ y ∈ hs, y ≤ pyMaxOr0 hs)
    ∧ (labelable_mask gws mf hs).length = gws.length
    ∧ labelable_mask [(5 : ℤ), 6] 10 [1, 5] = [true, false] := by
  refine ⟨?_, pyMaxOr0_spec hs hne, ?_, by decide⟩
  · unfold labelable_mask
    rw [if_neg (by simpa [List.isEmpty_iff] using hne)]
    rw [List.getD_eq_getElem?_getD, List.getElem?_map,
      List.getElem?_eq_getElem hi, List.getD_eq_getElem?_getD,
      List.getElem?_eq_getElem hi]
    simp
  · unfold labelable_mask
    rw [List.length_map]

/-- C3 witness: the general mask characterisation applied at gw 5 with the
watermark 10 and horizons [1, 5]. -/
theorem C3_labelable_mask_witness :
    (0 : ℕ) < 2 ∧ ([(1 : ℤ), 5] ≠ [])
    ∧ ((labelable_mask [(5 : ℤ), 6] 10 [1, 5]).getD 0 false = true ↔
        ([(5 : ℤ), 6].getD 0 0 ≤ 10 - pyMaxOr0 [1, 5])) :=
  ⟨by decide, by decide, (C3_labelable_mask [5, 6] 10 [1, 5] 0
    (by decide) (by decide)).1⟩

/-- Index form of the per-entity labelled rows: the i-th output row keeps
the i-th input gameweek and carries the horizon total at position i. -/
lemma add_horizon_labels_entity_getD (h : ℕ) (rows : List (ℤ × ℚ)) (i : ℕ)
    (hi : i < rows.length) :
    (add_horizon_labels_entity h rows).getD i (0, none) =
      ((rows.getD i (0, 0)).1,
        (horizonTotal h (rows.map (fun r => some r.2))).getD i none) := by
  have hlen : (horizonTotal h (rows.map (fun r => some r.2))).length
      = rows.length := by
    rw [horizonTotal_length, List.length_map]
  unfold add_horizon_labels_entity
  rw [List.getD_eq_getElem?_getD, List.getElem?_zipWith,
    List.getElem?_eq_getElem hi,
    List.getElem?_eq_getElem (show i < (horizonTotal h
      (rows.map (fun r => some r.2))).length by rw [hlen]; exact hi),
    List.getD_eq_getElem?_getD rows, List.getElem?_eq_getElem hi,
    List.getD_eq_getElem?_getD, List.getElem?_eq_getElem (show i <
      (horizonTotal h (rows.map (fun r => some r.2))).length by
        rw [hlen]; exact hi)]
  rfl

/-- C1 counterexample: an entity with rows at gameweeks 1 and 3 only.  The
code's horizon-1 total at gameweek 1 is the value of the NEXT ROW — the one
at gameweek 3 — namely 7, whereas the claim's "sum of the source column
over gameweeks 2 … 2" is an empty sum, 0. -/
theorem C1_counterexample :
    (add_horizon_labels_entity 1 [((1 : ℤ), (5 : ℚ)), (3, 7)]).getD 0 (0, none)
        = (1, some 7)
    ∧ specGwWindowSum [((1 : ℤ), (5 : ℚ)), (3, 7)] 1 1 = 0
    ∧ some (7 : ℚ) ≠ some (0 : ℚ) := by
  refine ⟨?_, ?_, by simp⟩
  · rw [add_horizon_labels_entity_getD 1 _ 0 (by norm_num)]
    have hmap : ([((1 : ℤ), (5 : ℚ)), (3, 7)].map (fun r => some r.2))
        = ([(5 : ℚ), 7].map some) := rfl
    rw [hmap, horizonTotal_getD [5, 7] 1 0 (by norm_num) (by norm_num)]
    norm_num
  · norm_num [specGwWindowSum]

/-- C1 (amended): over one entity's gameweek-sorted rows, the horizon-`h`
total label at the i-th row is the sum of the source column over the
entity's NEXT `h` ROWS (a positional strictly-future window, which equals
the sum over gameweeks `g+1 … g+h` when the entity's gameweeks are
consecutive), never including the row itself, and is missing — not zero —
when fewer than `h` later rows exist; the per-week label is total / h. -/
theorem C1_add_horizon_labels (rows : List (ℤ × ℚ)) (h i : ℕ) (hh : 1 ≤ h)
    (hi : i < rows.length) :
    (add_horizon_labels_entity h rows).getD i (0, none)
      = ((rows.getD i (0, 0)).1,
          if i + h < rows.length then
            some ((((rows.map (fun r => r.2)).drop (i + 1)).take h).sum)
          else none)
    ∧ (horizonPerWeek h (rows.map (fun r => some r.2))).getD i none
      = ((horizonTotal h (rows.map (fun r => some r.2))).getD i none).map
          (fun q => q / (h : ℚ)) := by
  have hmapmap : rows.map (fun r => some r.2)
      = (rows.map (fun r => r.2)).map some := by
    rw [List.map_map]
    rfl
  have hlen2 : (rows.map (fun r => r.2)).length = rows.length :=
    List.length_map _ _
  constructor
  · rw [add_horizon_labels_entity_getD h rows i hi, hmapmap,
      horizonTotal_getD (rows.map (fun r => r.2)) h i hh
        (by rw [hlen2]; exact hi), hlen2]
  · have hlen3 : (horizonTotal h (rows.map (fun r => some r.2))).length
        = rows.length := by
      rw [horizonTotal_length, List.length_map]
    unfold horizonPerWeek
    rw [List.getD_eq_getElem?_getD, List.getElem?_map,
      List.getElem?_eq_getElem (show i < (horizonTotal h
        (rows.map (fun r => some r.2))).length by rw [hlen3]; exact hi),
      List.getD_eq_getElem?_getD, List.getElem?_eq_getElem (show i <
        (horizonTotal h (rows.map (fun r => some r.2))).length by
          rw [hlen3]; exact hi)]
    rfl

/-- C1 witness: `event_points` `[2, 4, 6, 8, 10]` at gameweeks
`[1, 2, 3, 4, 5]` with horizon 2 — the total at gameweek 1 is
`4 + 6 = 10` and at gameweek 4 (one future row, window needs two) it is
missing. -/
theorem C1_add_horizon_labels_witness :
    (1 : ℕ) ≤ 2 ∧ (0 : ℕ) < 5 ∧ (3 : ℕ) < 5
    ∧ (add_horizon_labels_entity 2
        [((1 : ℤ), (2 : ℚ)), (2, 4), (3, 6), (4, 8), (5, 10)]).getD 0 (0, none)
          = (1, some 10)
    ∧ (add_horizon_labels_entity 2
        [((1 : ℤ), (2 : ℚ)), (2, 4), (3, 6), (4, 8), (5, 10)]).getD 3 (0, none)
          = (4, none) := by
  refine ⟨by norm_num, by norm_num, by norm_num, ?_, ?_⟩
  · rw [(C1_add_horizon_labels
      [((1 : ℤ), (2 : ℚ)), (2, 4), (3, 6), (4, 8), (5, 10)] 2 0
      (by norm_num) (by norm_num)).1]
    norm_num
  · rw [(C1_add_horizon_labels
      [((1 : ℤ), (2 : ℚ)), (2, 4), (3, 6), (4, 8), (5, 10)] 2 3
      (by norm_num) (by norm_num)).1]
    norm_num

/-- C4: `add_per90_features` gives each row `value / minutes * 90`; a row
with zero (or missing) minutes gets a missing per-90 value — never a number
at all, hence never infinite and never zero. -/
theorem C4_add_per90_features (rows : List StatRow) (r : StatRow)
    (p : Option ℚ) (hmem : (r, p) ∈ add_per90_features rows) :
    (r.minutes = some 0 → p = none)
    ∧ (r.minutes = none → p = none)
    ∧ (∀ mv vv : ℚ, r.minutes = some mv → mv ≠ 0 → r.value = some vv →
        p = some (vv / mv * 90)) := by
  unfold add_per90_features at hmem
  rcases List.mem_map.mp hmem with ⟨r0, _, heq⟩
  obtain ⟨hr, hp2⟩ := Prod.mk.inj heq
  subst hr
  have hp : p = per90Cell r0.value r0.minutes := hp2.symm
  subst hp
  refine ⟨?_, ?_, ?_⟩
  · intro hm
    rw [hm]
    cases r0.value <;> simp [per90Cell, minutesReplace0, optDiv, optBin]
  · intro hm
    rw [hm]
    cases r0.value <;> simp [per90Cell, minutesReplace0, optDiv, optBin]
  · intro mv vv hm hne hv
    rw [hm, hv]
    simp [per90Cell, minutesReplace0, optDiv, optBin, hne]

/-- C4 witness: a row with 45 minutes and metric value 9 gets per-90 value
`9 / 45 * 90 = 18`, and a zero-minutes row gets a missing value. -/
theorem C4_add_per90_features_witness :
    ((⟨some 45, some 9⟩ : StatRow), some (18 : ℚ))
        ∈ add_per90_features [⟨some 45, some 9⟩, ⟨some 0, some 9⟩]
    ∧ ((⟨some 0, some 9⟩ : StatRow), (none : Option ℚ))
        ∈ add_per90_features [⟨some 45, some 9⟩, ⟨some 0, some 9⟩]
    ∧ some (18 : ℚ) = some ((9 : ℚ) / 45 * 90)
    ∧ (none : Option ℚ) = none := by
  have h18 : per90Cell (some 9) (some 45) = some 18 := by
    simp [per90Cell, minutesReplace0, optDiv, optBin]
    norm_num
  have h0 : per90Cell (some 9) (some 0) = none := by
    simp [per90Cell, minutesReplace0, optDiv, optBin]
  have hm1 : ((⟨some 45, some 9⟩ : StatRow), some (18 : ℚ))
      ∈ add_per90_features [⟨some 45, some 9⟩, ⟨some 0, some 9⟩] := by
    unfold add_per90_features
    rw [List.map_cons]
    exact List.mem_cons.mpr (Or.inl (by rw [h18]))
  have hm2 : ((⟨some 0, some 9⟩ : StatRow), (none : Option ℚ))
      ∈ add_per90_features [⟨some 45, some 9⟩, ⟨some 0, some 9⟩] := by
    unfold add_per90_features
    rw [List.map_cons, List.map_cons]
    exact List.mem_cons.mpr (Or.inr (List.mem_cons.mpr (Or.inl (by rw [h0]))))
  refine ⟨hm1, hm2, ?_, ?_⟩
  · have := (C4_add_per90_features _ _ _ hm1).2.2 45 9 rfl (by norm_num) rfl
    exact this
  · exact (C4_add_per90_features _ _ _ hm2).1 rfl

/-- C5: `_to_bool_series` maps every encoding the spec lists to the right
boolean — python booleans, integers 0/1, and strings equal to
"true" / "false" / "yes" / "t" up to whitespace and letter case. -/
theorem C5_to_bool_series :
    (∀ b : Bool, to_bool_series (.boolean b) = b)
    ∧ to_bool_series (.intVal 1) = true
    ∧ to_bool_series (.intVal 0) = false
    ∧ (∀ s : String, pyLower (pyStrip s.data) = "true".data →
        to_bool_series (.strVal s) = true)
    ∧ (∀ s : String, pyLower (pyStrip s.data) = "false".data →
        to_bool_series (.strVal s) = false)
    ∧ (∀ s : String, pyLower (pyStrip s.data) = "yes".data →
        to_bool_series (.strVal s) = true)
    ∧ (∀ s : String, pyLower (pyStrip s.data) = "t".data →
        to_bool_series (.strVal s) = true) := by
  refine ⟨?_, by decide, by decide, ?_, ?_, ?_, ?_⟩
  · intro b
    cases b <;> decide
  all_goals
    intro s hs
    unfold to_bool_series Cell.pyStr
    rw [hs]
    decide

/-- C5 witness: mixed-case, whitespace-padded concrete encodings. -/
theorem C5_to_bool_series_witness :
    pyLower (pyStrip (" TRUE ".data)) = "true".data
    ∧ to_bool_series (.strVal (" TRUE ")) = true
    ∧ pyLower (pyStrip ("faLse".data)) = "false".data
    ∧ to_bool_series (.strVal ("faLse")) = false
    ∧ pyLower (pyStrip ("Yes".data)) = "yes".data
    ∧ to_bool_series (.strVal ("Yes")) = true
    ∧ pyLower (pyStrip ("T".data)) = "t".data
    ∧ to_bool_series (.strVal ("T")) = true
    ∧ to_bool_series (.boolean true) = true :=
  ⟨by decide, C5_to_bool_series.2.2.2.1 (" TRUE ") (by decide),
   by decide, C5_to_bool_series.2.2.2.2.1 ("faLse") (by decide),
   by decide, C5_to_bool_series.2.2.2.2.2.1 ("Yes") (by decide),
   by decide, C5_to_bool_series.2.2.2.2.2.2 ("T") (by decide),
   C5_to_bool_series.1 true⟩

/-- C6: the rolling mean of `add_player_rolling_features`
(`include_current = true`, the default and the mode every caller uses,
`min_periods = 1`) needs only one observed value: at an entity's first row
the window-`w` feature equals that single observation — defined, not
missing — and any early row with fewer than `w` samples gets the mean of
the available samples. -/
theorem C6_player_rolling_feature (vs : List ℚ) (w i : ℕ) (hw : 1 ≤ w)
    (hi : i < vs.length) (hfew : i + 1 ≤ w) :
    (player_rolling_feature true w (vs.map some)).getD i none
      = some ((vs.take (i + 1)).sum / ((i + 1 : ℕ) : ℚ))
    ∧ (∀ v rest, vs = v :: rest →
        (player_rolling_feature true w (vs.map some)).getD 0 none = some v) := by
  have hgen : ∀ j : ℕ, j < vs.length → j + 1 ≤ w →
      (player_rolling_feature true w (vs.map some)).getD j none
        = some ((vs.take (j + 1)).sum / ((j + 1 : ℕ) : ℚ)) := by
    intro j hj hjw
    have hcur : player_rolling_feature true w (vs.map some)
        = rollingMean w 1 (vs.map some) := by
      unfold player_rolling_feature
      simp
    rw [hcur, rollingMean_getD w 1 _ j (by rw [List.length_map]; exact hj),
      windowObs_map_some vs j w hj]
    have h0 : j + 1 - w = 0 := by omega
    rw [h0, List.drop_zero, Nat.sub_zero]
    have hlen : (vs.take (j + 1)).length = j + 1 := by
      rw [List.length_take]
      omega
    rw [hlen, if_pos (by omega)]
  refine ⟨hgen i hi hfew, ?_⟩
  intro v rest hvs
  rw [hgen 0 (by rw [hvs]; simp) hw, hvs]
  simp

/-- C6 witness: an entity first observed with value 4, then 6, window 3 —
the first row's feature is 4 (defined from a single observation) and the
second row's is the mean of the two available samples, 5. -/
theorem C6_player_rolling_feature_witness :
    (1 : ℕ) ≤ 3 ∧ (1 : ℕ) < 2 ∧ 1 + 1 ≤ 3
    ∧ (player_rolling_feature true 3 ([(4 : ℚ), 6].map some)).getD 1 none
        = some 5
    ∧ (player_rolling_feature true 3 ([(4 : ℚ), 6].map some)).getD 0 none
        = some 4 := by
  refine ⟨by norm_num, by norm_num, by norm_num, ?_, ?_⟩
  · rw [(C6_player_rolling_feature [4, 6] 3 1 (by norm_num) (by norm_num)
      (by norm_num)).1]
    norm_num
  · exact (C6_player_rolling_feature [4, 6] 3 1 (by norm_num) (by norm_num)
      (by norm_num)).2 4 [6] rfl

/-
## Lemmas for the fixture-difficulty builder
-/

lemma countP_sum_of_disjoint {α : Type} (p q : α → Bool) :
    ∀ l : List α, (∀ a ∈ l, ¬(p a = true ∧ q a = true)) →
      l.countP p + l.countP q = l.countP (fun a => p a || q a) := by
  intro l
  induction l with
  | nil => intro; rfl
  | cons a l ih =>
    intro hnb
    rw [List.countP_cons, List.countP_cons, List.countP_cons,
      ← ih (fun x hx => hnb x (List.mem_cons_of_mem a hx))]
    have ha := hnb a (List.mem_cons_self a l)
    cases hpa : p a <;> cases hqa : q a <;>
      simp [hpa, hqa] at ha ⊢ <;> omega

lemma countP_eq_one_of_nodup_mem {α : Type} [DecidableEq α] (l : List α)
    (hl : l.Nodup) (a : α) (ha : a ∈ l) :
    l.countP (fun x => decide (x = a)) = 1 := by
  induction l with
  | nil => cases ha
  | cons b l ih =>
    rw [List.nodup_cons] at hl
    rw [List.countP_cons]
    rcases List.mem_cons.mp ha with hab | hal
    · have hz : l.countP (fun x => decide (x = a)) = 0 := by
        rw [List.countP_eq_zero]
        intro x hx
        simp only [decide_eq_true_eq]
        intro hxa
        exact hl.1 (by rw [hxa, hab] at hx; exact hx)
      rw [hz, if_pos (by simp [hab])]
    · have hba : ¬(b = a) := by
        intro hba
        exact hl.1 (hba ▸ hal)
      rw [ih hl.2 hal, if_neg (by simp [hba])]

/-- The per-team upcoming-fixture count equals the count over the original
fixtures table: a fixture of team `t` is one where `t` is the home or the
away side (sides are distinct), inside the look-ahead window. -/
lemma upcoming_length (fixtures : List FixtureRow) (t : ℕ) (g : ℤ) (h : ℕ)
    (hok : ∀ fx ∈ fixtures, fx.home_team ≠ fx.away_team) :
    (((teamFx fixtures).filter (fun r => r.team_id = t)).filter
        (fun r => g < r.gw ∧ r.gw ≤ g + (h : ℤ))).length
      = (fixtures.filter (fun fx =>
          (fx.home_team = t ∨ fx.away_team = t)
          ∧ g < fx.gw ∧ fx.gw ≤ g + (h : ℤ))).length := by
  rw [List.filter_filter, ← List.countP_eq_length_filter,
    ← List.countP_eq_length_filter]
  unfold teamFx
  rw [List.countP_append, List.countP_map, List.countP_map,
    countP_sum_of_disjoint _ _ fixtures (by
      intro fx hfx hboth
      simp only [Function.comp_apply, Bool.and_eq_true, decide_eq_true_eq,
        homeRow, awayRow] at hboth
      exact hok fx hfx (by rw [hboth.1.2, hboth.2.2]))]
  refine List.countP_congr ?_
  intro fx _
  simp only [Function.comp_apply, Bool.or_eq_true, Bool.and_eq_true,
    decide_eq_true_eq, homeRow, awayRow]
  constructor
  · rintro (⟨hw, hteam⟩ | ⟨hw, hteam⟩) <;>
      exact ⟨by tauto, hw.1, hw.2⟩
  · rintro ⟨hor, hw1, hw2⟩
    rcases hor with ht | ht
    · exact Or.inl ⟨⟨hw1, hw2⟩, ht⟩
    · exact Or.inr ⟨⟨hw1, hw2⟩, ht⟩

/-- C7: in every cell of `build_team_fixture_difficulty`, the fixture
count is exactly the number of the team's fixtures strictly after the
row's gameweek and at most `h` gameweeks ahead, and when that count is
zero the four aggregate columns are missing — never zero. -/
theorem C7_fixture_difficulty_cells (fixtures : List FixtureRow)
    (teams_dim : Option (List (ℕ × ℚ))) (horizons : List ℕ)
    (row : DifficultyRow) (h : ℕ) (cell : HorizonCell)
    (hrow : row ∈ build_team_fixture_difficulty fixtures teams_dim horizons)
    (hcell : (h, cell) ∈ row.cells)
    (hok : ∀ fx ∈ fixtures, fx.home_team ≠ fx.away_team) :
    cell.fixture_count = (fixtures.filter (fun fx =>
        (fx.home_team = row.team_id ∨ fx.away_team = row.team_id)
        ∧ row.gw < fx.gw ∧ fx.gw ≤ row.gw + (h : ℤ))).length
    ∧ (cell.fixture_count = 0 →
        cell.home_share = none ∧ cell.opp_elo_avg = none
        ∧ cell.opp_strength_avg = none ∧ cell.elo_delta_avg = none) := by
  unfold build_team_fixture_difficulty at hrow
  by_cases hfe : fixtures.isEmpty
  · rw [if_pos hfe] at hrow
    cases hrow
  · rw [if_neg hfe] at hrow
    rcases List.mem_map.mp hrow with ⟨p, _, hpr⟩
    subst hpr
    rcases List.mem_map.mp hcell with ⟨h0, _, hc0⟩
    obtain ⟨hh0, hcc⟩ := Prod.mk.inj hc0
    rw [hh0] at hcc
    subst hcc
    have hcount : (horizonCell teams_dim
        ((teamFx fixtures).filter (fun r => r.team_id = p.1)) p.2 h).fixture_count
          = (((teamFx fixtures).filter (fun r => r.team_id = p.1)).filter
              (fun r => p.2 < r.gw ∧ r.gw ≤ p.2 + (h : ℤ))).length := by
      by_cases hz : (((teamFx fixtures).filter (fun r => r.team_id = p.1)).filter
          (fun r => p.2 < r.gw ∧ r.gw ≤ p.2 + (h : ℤ))).length = 0
      · simp only [horizonCell]
        rw [if_pos hz]
        exact hz.symm
      · simp only [horizonCell]
        rw [if_neg hz]
    constructor
    · rw [hcount]
      exact upcoming_length fixtures p.1 p.2 h hok
    · intro hz
      rw [hcount] at hz
      simp only [horizonCell]
      rw [if_pos hz]
      exact ⟨rfl, rfl, rfl, rfl⟩

/-- C7 witness: one fixture at gameweek 2; in the grid row of the home
team at gameweek 2, the horizon-1 window (gameweek 3) holds no fixture,
so the count is 0 and every aggregate is missing. -/
theorem C7_fixture_difficulty_cells_witness :
    DifficultyRow.mk 10 2 [(1, HorizonCell.mk 0 none none none none)]
        ∈ build_team_fixture_difficulty [FixtureRow.mk 2 10 20 1500 1400] none [1]
    ∧ ((1 : ℕ), HorizonCell.mk 0 none none none none)
        ∈ (DifficultyRow.mk 10 2 [(1, HorizonCell.mk 0 none none none none)]).cells
    ∧ (∀ fx ∈ [FixtureRow.mk 2 10 20 1500 1400],
        fx.home_team ≠ fx.away_team)
    ∧ (0 = ([FixtureRow.mk 2 10 20 1500 1400].filter (fun fx =>
        (fx.home_team = 10 ∨ fx.away_team = 10)
        ∧ (2 : ℤ) < fx.gw ∧ fx.gw ≤ (2 : ℤ) + ((1 : ℕ) : ℤ))).length
      ∧ (none : Option ℚ) = none) := by
  have hrow : DifficultyRow.mk 10 2 [(1, HorizonCell.mk 0 none none none none)]
      ∈ build_team_fixture_difficulty [FixtureRow.mk 2 10 20 1500 1400] none [1] := by
    decide
  have hcell : ((1 : ℕ), HorizonCell.mk 0 none none none none)
      ∈ (DifficultyRow.mk 10 2 [(1, HorizonCell.mk 0 none none none none)]).cells := by
    decide
  have hok : ∀ fx ∈ [FixtureRow.mk 2 10 20 1500 1400],
      fx.home_team ≠ fx.away_team := by decide
  have hmain := C7_fixture_difficulty_cells [FixtureRow.mk 2 10 20 1500 1400]
    none [1] _ 1 _ hrow hcell hok
  exact ⟨hrow, hcell, hok, hmain.1, (hmain.2 (by rw [hmain.1]; decide)).1⟩

/-- C10: the output of `build_team_fixture_difficulty` is a dense grid —
for every team id appearing in the fixtures (on either side) and every
gameweek from the minimum to the maximum fixture gameweek inclusive, there
is exactly one output row with that `(team_id, gw)` key, also at gameweeks
where the team has no fixture. -/
theorem C10_dense_grid (fixtures : List FixtureRow)
    (teams_dim : Option (List (ℕ × ℚ))) (horizons : List ℕ) (t : ℕ) (g : ℤ)
    (happ : ∃ fx ∈ fixtures, fx.home_team = t ∨ fx.away_team = t)
    (hlo : pyMinOr0 ((teamFx fixtures).map (fun r => r.gw)) ≤ g)
    (hhi : g ≤ pyMaxOr0 ((teamFx fixtures).map (fun r => r.gw))) :
    ((build_team_fixture_difficulty fixtures teams_dim horizons).filter
        (fun row => row.team_id = t ∧ row.gw = g)).length = 1 := by
  obtain ⟨fx0, hfx0, hside⟩ := happ
  have hfe : ¬ fixtures.isEmpty := by
    cases fixtures with
    | nil => cases hfx0
    | cons a l => simp
  unfold build_team_fixture_difficulty
  rw [if_neg hfe, ← List.countP_eq_length_filter, List.countP_map]
  have hpoint : ∀ p : ℕ × ℤ,
      ((fun row : DifficultyRow => decide (row.team_id = t ∧ row.gw = g)) ∘
        (fun p : ℕ × ℤ =>
          ({ team_id := p.1, gw := p.2,
             cells := horizons.map (fun h => (h, horizonCell teams_dim
               ((teamFx fixtures).filter (fun r => r.team_id = p.1)) p.2 h)) }
            : DifficultyRow))) p
        = decide (p = (t, g)) := by
    intro p
    simp only [Function.comp_apply]
    rw [decide_eq_decide]
    constructor
    · rintro ⟨h1, h2⟩
      exact Prod.ext h1 h2
    · intro hp
      rw [hp]
      exact ⟨rfl, rfl⟩
  rw [List.countP_congr (fun p _ => by rw [hpoint p])]
  have hteams : t ∈ ((teamFx fixtures).map (fun r => r.team_id)).dedup.insertionSort
      (· ≤ ·) := by
    refine (List.perm_insertionSort (· ≤ ·) _).mem_iff.mpr ?_
    refine List.mem_dedup.mpr (List.mem_map.mpr ?_)
    rcases hside with hh | hh
    · exact ⟨homeRow fx0, List.mem_append.mpr (Or.inl
        (List.mem_map_of_mem homeRow hfx0)), hh⟩
    · exact ⟨awayRow fx0, List.mem_append.mpr (Or.inr
        (List.mem_map_of_mem awayRow hfx0)), hh⟩
  have hg : g ∈ (List.range ((pyMaxOr0 ((teamFx fixtures).map (fun r => r.gw))
      - pyMinOr0 ((teamFx fixtures).map (fun r => r.gw)) + 1).toNat)).map
        (fun k : ℕ => pyMinOr0 ((teamFx fixtures).map (fun r => r.gw)) + (k : ℤ)) := by
    refine List.mem_map.mpr ⟨(g - pyMinOr0 ((teamFx fixtures).map
      (fun r => r.gw))).toNat, List.mem_range.mpr (by omega), by omega⟩
  have hnodup : (((teamFx fixtures).map (fun r => r.team_id)).dedup.insertionSort
      (· ≤ ·) ×ˢ (List.range ((pyMaxOr0 ((teamFx fixtures).map (fun r => r.gw))
        - pyMinOr0 ((teamFx fixtures).map (fun r => r.gw)) + 1).toNat)).map
          (fun k : ℕ => pyMinOr0 ((teamFx fixtures).map (fun r => r.gw)) + (k : ℤ))).Nodup := by
    refine List.Nodup.product ?_ ?_
    · exact ((List.perm_insertionSort (· ≤ ·) _).nodup_iff).mpr
        (List.nodup_dedup _)
    · refine List.Nodup.map ?_ (List.nodup_range _)
      intro a b hab
      simp only [add_right_inj, Nat.cast_inj] at hab
      exact hab
  exact countP_eq_one_of_nodup_mem _ hnodup (t, g)
    (List.mem_product.mpr ⟨hteams, hg⟩)

/-- C10 witness: a single fixture at gameweek 1 between teams 10 and 20 —
the away team 20 appears in the grid at gameweek 1 exactly once. -/
theorem C10_dense_grid_witness :
    (∃ fx ∈ [FixtureRow.mk 1 10 20 1500 1400],
        fx.home_team = 20 ∨ fx.away_team = 20)
    ∧ pyMinOr0 ((teamFx [FixtureRow.mk 1 10 20 1500 1400]).map
        (fun r => r.gw)) ≤ 1
    ∧ (1 : ℤ) ≤ pyMaxOr0 ((teamFx [FixtureRow.mk 1 10 20 1500 1400]).map
        (fun r => r.gw))
    ∧ ((build_team_fixture_difficulty [FixtureRow.mk 1 10 20 1500 1400]
        none [1]).filter (fun row => row.team_id = 20 ∧ row.gw = 1)).length
          = 1 :=
  ⟨by decide, by decide, by decide,
    C10_dense_grid [FixtureRow.mk 1 10 20 1500 1400] none [1] 20 1
      (by decide) (by decide) (by decide)⟩

/-- C8 (code bug): `add_substitution_rates` is meant to return the base
frame unchanged whenever a dependency is missing, and its own guard
`if "gw" not in pm.columns: return base_df` (line 95) shows that intent
for an underivable gameweek — but when the player-match table lacks `gw`
and the match table carries neither `gw` nor `gameweek` (while both tables
are nonempty and carry `match_id`, and the player-match table carries
`player_id`, `start_min`, `finish_min`, `minutes_played`), the column
selection `matches[["match_id", "gw"]]` at line 88 raises a `KeyError`
before that guard can fire. -/
theorem C8_add_substitution_rates_keyerror :
    add_substitution_rates
      (Frame.mk ["player_id", "gw"] [[("player_id", 1), ("gw", 1)]])
      (Frame.mk ["match_id", "player_id", "start_min", "finish_min",
          "minutes_played"]
        [[("match_id", 1), ("player_id", 1), ("start_min", 0),
          ("finish_min", 90), ("minutes_played", 90)]])
      (Frame.mk ["match_id", "finished"] [[("match_id", 1), ("finished", 1)]])
      5 70 1
      = .error ("KeyError: gw") := by
  rfl

/-
## Lemmas for the loader
-/

lemma loadLoop_all_missing (fname : String) (add_gw : Bool) :
    ∀ (dirs : List (ℤ × GwDir)) (acc : List Frame × Option (List String)),
      (∀ e ∈ dirs, e.2.lookup fname = none) →
      loadLoop fname add_gw true dirs acc = .ok acc := by
  intro dirs
  induction dirs with
  | nil => intro acc _; rfl
  | cons e rest ih =>
    intro acc hall
    obtain ⟨g, d⟩ := e
    obtain ⟨frames, fc⟩ := acc
    have hd : d.lookup fname = none := hall (g, d) (List.mem_cons_self _ _)
    simp only [loadLoop, hd, if_true]
    exact ih (frames, fc) (fun x hx => hall x (List.mem_cons_of_mem _ hx))

lemma loadLoop_found (fname : String) (add_gw : Bool) :
    ∀ (dirs : List (ℤ × GwDir)) (frames : List Frame)
      (fc : Option (List String)),
      loadLoop fname add_gw true dirs (frames, fc)
        = .ok (frames ++ processedFrames fname add_gw dirs,
            fc.or ((foundFrames fname dirs).head?.map (fun f => f.cols))) := by
  intro dirs
  induction dirs with
  | nil =>
    intro frames fc
    simp [loadLoop, processedFrames, foundFrames]
  | cons e rest ih =>
    intro frames fc
    obtain ⟨g, d⟩ := e
    cases hd : d.lookup fname with
    | none =>
      simp only [loadLoop, hd, if_true]
      rw [ih frames fc]
      simp [processedFrames, foundFrames, hd, List.filterMap_cons]
    | some df =>
      simp only [loadLoop, hd]
      rw [ih]
      have hfr : (frames ++ [if add_gw ∧ ¬ ("gw" ∈ df.cols)
            then insertGwCol g df else df]) ++ processedFrames fname add_gw rest
          = frames ++ processedFrames fname add_gw ((g, d) :: rest) := by
        rw [List.append_assoc]
        congr 1
        simp [processedFrames, List.filterMap_cons, hd]
      have hfc : ((if fc.isNone then some df.cols else fc).or
            ((foundFrames fname rest).head?.map (fun f => f.cols)))
          = fc.or ((foundFrames fname ((g, d) :: rest)).head?.map
              (fun f => f.cols)) := by
        have hfound : foundFrames fname ((g, d) :: rest)
            = df :: foundFrames fname rest := by
          simp [foundFrames, List.filterMap_cons, hd]
        rw [hfound]
        cases fc <;> simp
      rw [hfr, hfc]

lemma loadLoop_strict_error (fname : String) (add_gw : Bool) :
    ∀ (dirs : List (ℤ × GwDir)) (acc : List Frame × Option (List String)),
      (∃ e ∈ dirs, e.2.lookup fname = none) →
      ∃ msg, loadLoop fname add_gw false dirs acc = .error msg := by
  intro dirs
  induction dirs with
  | nil =>
    rintro acc ⟨e, he, _⟩
    cases he
  | cons e rest ih =>
    rintro acc ⟨e0, he0, hnone⟩
    obtain ⟨g, d⟩ := e
    obtain ⟨frames, fc⟩ := acc
    cases hd : d.lookup fname with
    | none =>
      refine ⟨"Missing file: " ++ d.name ++ "/" ++ fname, ?_⟩
      simp [loadLoop, hd]
    | some df =>
      rcases List.mem_cons.mp he0 with he1 | he1
      · rw [he1] at hnone
        rw [hnone] at hd
        cases hd
      · simp only [loadLoop, hd]
        exact ih _ ⟨e0, he1, hnone⟩

lemma loadLoop_skip (fname : String) (add_gw : Bool) :
    ∀ (dirs : List (ℤ × GwDir)) (acc : List Frame × Option (List String)),
      loadLoop fname add_gw true dirs acc
        = loadLoop fname add_gw true
            (dirs.filter (fun e => (e.2.lookup fname).isSome)) acc := by
  intro dirs
  induction dirs with
  | nil => intro acc; rfl
  | cons e rest ih =>
    intro acc
    obtain ⟨g, d⟩ := e
    obtain ⟨frames, fc⟩ := acc
    cases hd : d.lookup fname with
    | none =>
      rw [List.filter_cons_of_neg (by simp [hd])]
      simp only [loadLoop, hd, if_true]
      exact ih (frames, fc)
    | some df =>
      rw [List.filter_cons_of_pos (by simp [hd])]
      simp only [loadLoop, hd]
      exact ih _

lemma processedFrames_rows_empty (fname : String) (add_gw : Bool) :
    ∀ dirs : List (ℤ × GwDir),
      (∀ f ∈ foundFrames fname dirs, f.rows = []) →
      ∀ f2 ∈ processedFrames fname add_gw dirs, f2.rows = [] := by
  intro dirs
  induction dirs with
  | nil => intro _ f2 hf2; cases hf2
  | cons e rest ih =>
    intro hall f2 hf2
    obtain ⟨g, d⟩ := e
    cases hd : d.lookup fname with
    | none =>
      rw [processedFrames, List.filterMap_cons] at hf2
      simp only [hd, Option.map_none] at hf2
      exact ih (fun f hf => hall f (by
        rw [foundFrames, List.filterMap_cons]
        simp only [hd]
        exact hf)) f2 hf2
    | some df =>
      have hdfr : df.rows = [] := hall df (by
        rw [foundFrames, List.filterMap_cons]
        simp only [hd]
        exact List.mem_cons_self _ _)
      rw [processedFrames, List.filterMap_cons] at hf2
      simp only [hd, Option.map_some] at hf2
      rcases List.mem_cons.mp hf2 with hf | hf
      · rw [hf]
        show (if add_gw = true ∧ "gw" ∉ df.cols then insertGwCol g df
          else df).rows = []
        by_cases hc : add_gw = true ∧ "gw" ∉ df.cols
        · rw [if_pos hc]
          simp [insertGwCol, hdfr]
        · rw [if_neg hc]
          exact hdfr
      · exact ih (fun f hf3 => hall f (by
          rw [foundFrames, List.filterMap_cons]
          simp only [hd]
          exact List.mem_cons_of_mem _ hf3)) f2 hf

lemma processedFrames_ne_nil (fname : String) (add_gw : Bool)
    (dirs : List (ℤ × GwDir)) (hne : foundFrames fname dirs ≠ []) :
    processedFrames fname add_gw dirs ≠ [] := by
  induction dirs with
  | nil => exact absurd rfl hne
  | cons e rest ih =>
    obtain ⟨g, d⟩ := e
    cases hd : d.lookup fname with
    | none =>
      rw [processedFrames, List.filterMap_cons]
      simp only [hd, Option.map_none]
      refine ih ?_
      rw [foundFrames, List.filterMap_cons] at hne
      simp only [hd] at hne
      exact hne
    | some df =>
      rw [processedFrames, List.filterMap_cons]
      simp only [hd, Option.map_some]
      exact List.cons_ne_nil _ _

/-- C9: `load_all_gws` in lenient mode returns an empty frame — not an
error — when no gameweek directory holds the file; when at least one frame
was read and all read frames are row-empty, the result keeps the first
read frame's column headers; in strict mode any directory missing the
file produces an error; and in lenient mode the loading loop's result
only depends on the directories that do hold the file (missing ones are
silently skipped). -/
theorem C9_load_all_gws (root : List GwDir) (fname : String) (add_gw : Bool) :
    ((∀ e ∈ list_gw_dirs root, e.2.lookup fname = none) →
      load_all_gws root fname add_gw true = .ok ⟨[], []⟩)
    ∧ (∀ f0, (foundFrames fname (list_gw_dirs root)).head? = some f0 →
        (∀ f ∈ foundFrames fname (list_gw_dirs root), f.rows = []) →
        load_all_gws root fname add_gw true = .ok ⟨f0.cols, []⟩)
    ∧ ((∃ e ∈ list_gw_dirs root, e.2.lookup fname = none) →
        ∃ msg, load_all_gws root fname add_gw false = .error msg)
    ∧ (loadLoop fname add_gw true (list_gw_dirs root) ([], none)
        = loadLoop fname add_gw true
            ((list_gw_dirs root).filter (fun e => (e.2.lookup fname).isSome))
            ([], none)) := by
  refine ⟨?_, ?_, ?_, loadLoop_skip fname add_gw _ _⟩
  · intro hall
    unfold load_all_gws
    rw [loadLoop_all_missing fname add_gw _ _ hall]
    rfl
  · intro f0 hf0 hempty
    unfold load_all_gws
    rw [loadLoop_found fname add_gw _ [] none]
    have hpne : processedFrames fname add_gw (list_gw_dirs root) ≠ [] := by
      refine processedFrames_ne_nil fname add_gw _ ?_
      intro hnil
      rw [hnil] at hf0
      cases hf0
    have hfilter : (processedFrames fname add_gw (list_gw_dirs root)).filter
        (fun f => ¬ f.rows.isEmpty) = [] := by
      rw [List.filter_eq_nil_iff]
      intro f2 hf2
      have := processedFrames_rows_empty fname add_gw _ hempty f2 hf2
      simp [this]
    simp only [Except.map, List.nil_append, Option.none_or]
    rw [hf0]
    have hpe : (processedFrames fname add_gw (list_gw_dirs root)).isEmpty
        = false := by
      cases hp : processedFrames fname add_gw (list_gw_dirs root) with
      | nil => exact absurd hp hpne
      | cons a l => rfl
    rw [if_neg (by rw [hpe]; exact Bool.false_ne_true)]
    rw [hfilter]
    rfl
  · intro hex
    obtain ⟨msg, hmsg⟩ := loadLoop_strict_error fname add_gw
      (list_gw_dirs root) ([], none) hex
    refine ⟨msg, ?_⟩
    unfold load_all_gws
    rw [hmsg]
    rfl

/-- C9 witness: two well-formed gameweek directories.  With no file
anywhere the lenient result is the bare empty frame; with the file only in
`GW1`, holding a row-less frame with headers `a`, `b`, the lenient result
keeps those headers; the strict mode errors because `GW2` misses the
file. -/
theorem C9_load_all_gws_witness :
    ((∀ e ∈ list_gw_dirs [GwDir.mk ("GW1") [], GwDir.mk ("GW2") []],
        e.2.lookup ("players.csv") = none)
      ∧ load_all_gws [GwDir.mk ("GW1") [], GwDir.mk ("GW2") []] ("players.csv")
          true true = .ok ⟨[], []⟩)
    ∧ ((foundFrames ("players.csv") (list_gw_dirs
          [GwDir.mk ("GW1") [("players.csv", Frame.mk ["a", "b"] [])],
           GwDir.mk ("GW2") []])).head? = some (Frame.mk ["a", "b"] [])
      ∧ (∀ f ∈ foundFrames ("players.csv") (list_gw_dirs
          [GwDir.mk ("GW1") [("players.csv", Frame.mk ["a", "b"] [])],
           GwDir.mk ("GW2") []]), f.rows = [])
      ∧ load_all_gws [GwDir.mk ("GW1") [("players.csv", Frame.mk ["a", "b"] [])],
           GwDir.mk ("GW2") []] ("players.csv") true true
          = .ok ⟨["a", "b"], []⟩)
    ∧ ((∃ e ∈ list_gw_dirs [GwDir.mk ("GW1") [("players.csv",
            Frame.mk ["a", "b"] [])], GwDir.mk ("GW2") []],
          e.2.lookup ("players.csv") = none)
      ∧ ∃ msg, load_all_gws [GwDir.mk ("GW1") [("players.csv",
            Frame.mk ["a", "b"] [])], GwDir.mk ("GW2") []] ("players.csv")
          true false = .error msg) := by
  refine ⟨⟨by decide, ?_⟩, ⟨by decide, by decide, ?_⟩, ⟨by decide, ?_⟩⟩
  · exact (C9_load_all_gws [GwDir.mk ("GW1") [], GwDir.mk ("GW2") []]
      "players.csv" true).1 (by decide)
  · exact (C9_load_all_gws [GwDir.mk ("GW1") [("players.csv",
      Frame.mk ["a", "b"] [])], GwDir.mk ("GW2") []] ("players.csv") true).2.1
      (Frame.mk ["a", "b"] []) (by decide) (by decide)
  · exact (C9_load_all_gws [GwDir.mk ("GW1") [("players.csv",
      Frame.mk ["a", "b"] [])], GwDir.mk ("GW2") []] ("players.csv") true).2.2.1
      (by decide)

end FPL
